import Mathlib

/-!
# snowfinder-web: request handlers

A shallow embedding of `internal/handlers/handlers.go` and of the parts of Go's
`strconv` package it calls, followed by theorems about the month-day validator,
the search handler, the result assembler and the peak lookup handler.

Go strings are byte sequences (`len` and indexing count bytes), so a string is a
list of bytes here.  The storage collaborator (`repository.Reader`) is a record of
functions giving, for each method, what the call returns for its arguments; every
handler returns the list of storage calls it made together with what it wrote.
-/

set_option maxRecDepth 16000

namespace Snowfinder

/-! ## Go strings -/

/-- One byte of a Go string. -/
abbrev Byte := Fin 256

/-- A Go `string`: an immutable sequence of bytes. -/
abbrev GoString := List Byte

/-- Reduction of a natural number to a byte. -/
def toByte (n : Nat) : Byte := ⟨n % 256, Nat.mod_lt n (by decide)⟩

/-- UTF-8 encoding of one code point. -/
def utf8Bytes (c : Char) : GoString :=
  let n := c.toNat
  if n < 128 then [toByte n]
  else if n < 2048 then [toByte (192 + n / 64), toByte (128 + n % 64)]
  else if n < 65536 then
    [toByte (224 + n / 4096), toByte (128 + n / 64 % 64), toByte (128 + n % 64)]
  else
    [toByte (240 + n / 262144), toByte (128 + n / 4096 % 64), toByte (128 + n / 64 % 64),
     toByte (128 + n % 64)]

/-- The bytes of a string literal (its UTF-8 encoding, as in Go source text). -/
def goStr (s : String) : GoString :=
  s.toList.flatMap utf8Bytes

/-- The Go slice expression `s[i:j]` for `i ≤ j ≤ len(s)`. -/
def slice (s : GoString) (i j : Nat) : GoString :=
  (s.drop i).take (j - i)

/-! ## strconv (Go standard library) -/

/-- Width of the platform `int`: `strconv.IntSize` is 32 or 64. -/
inductive Arch where
  | bits32
  | bits64
  deriving DecidableEq, Repr

/-- The constant `strconv.IntSize`. -/
def intSize : Arch → Nat
  | .bits32 => 32
  | .bits64 => 64

/-- The two error values a `*strconv.NumError` can wrap. -/
inductive NumError where
  | ErrSyntax
  | ErrRange
  deriving DecidableEq, Repr

/-- Reduction of a natural number to `uint64`. -/
def wrapU64 (n : Nat) : Nat := n % 2 ^ 64

/-- The constant `maxUint64`. -/
def maxUint64 : Nat := 2 ^ 64 - 1

/-- The helper `lower(c)` of strconv: `c | ('x' - 'X')`. -/
def lower (c : Byte) : Nat := c.val ||| 32

/-- The loop of `strconv.ParseUint` for `base = 10` (so `base0` is false and an
underscore is a syntax error): `n` is the value accumulated so far, `maxVal`
the largest value of the requested bit size. -/
def parseUintLoop (maxVal : Nat) : GoString → Nat → Nat × Option NumError
  | [], n => (n, none)
  | c :: cs, n =>
    let digit : Option Nat :=
      if 48 ≤ c.val ∧ c.val ≤ 57 then some (c.val - 48)
      else if 97 ≤ lower c ∧ lower c ≤ 122 then some (lower c - 97 + 10)
      else none
    match digit with
    | none => (0, some .ErrSyntax)
    | some d =>
      if d ≥ 10 then (0, some .ErrSyntax)
      else if n ≥ maxUint64 / 10 + 1 then (maxVal, some .ErrRange)
      else
        let n10 := wrapU64 (n * 10)
        let n1 := wrapU64 (n10 + d)
        if n1 < n10 ∨ n1 > maxVal then (maxVal, some .ErrRange)
        else parseUintLoop maxVal cs n1

/-- The call `strconv.ParseUint(s, 10, 0)`: bit size 0 stands for `IntSize`. -/
def ParseUint (a : Arch) (s : GoString) : Nat × Option NumError :=
  if s = [] then (0, some .ErrSyntax)
  else
    let bitSize := intSize a
    let maxVal := wrapU64 (wrapU64 (2 ^ bitSize) + 2 ^ 64 - 1)
    parseUintLoop maxVal s 0

/-- The call `strconv.ParseInt(s, 10, 0)`. -/
def ParseInt (a : Arch) (s0 : GoString) : Int × Option NumError :=
  match s0 with
  | [] => (0, some .ErrSyntax)
  | c :: cs =>
    let neg : Bool := decide (c.val = 45)
    let s : GoString := if c.val = 43 then cs else if c.val = 45 then cs else s0
    let (un, err) := ParseUint a s
    if err = some .ErrSyntax then (0, err)
    else
      let cutoff : Nat := 2 ^ (intSize a - 1)
      if !neg && decide (un ≥ cutoff) then ((cutoff : Int) - 1, some .ErrRange)
      else if neg && decide (un > cutoff) then (-(cutoff : Int), some .ErrRange)
      else (if neg then -(un : Int) else (un : Int), none)

/-- The loop of the fast path of `strconv.Atoi`: `ch -= '0'` is byte arithmetic,
and more than 9 after it means the byte was no digit.  The length guard of the
fast path keeps `n` inside `int`. -/
def atoiLoop : GoString → Int → Option Int
  | [], n => some n
  | c :: cs, n =>
    let ch := (c.val + 256 - 48) % 256
    if ch > 9 then none else atoiLoop cs (n * 10 + (ch : Int))

/-- The function `strconv.Atoi(s)`: value and error. -/
def Atoi (a : Arch) (s0 : GoString) : Int × Option NumError :=
  let sLen := s0.length
  if (intSize a = 32 ∧ 0 < sLen ∧ sLen < 10) ∨ (intSize a = 64 ∧ 0 < sLen ∧ sLen < 19) then
    match s0 with
    | [] => (0, some .ErrSyntax)
    | c :: cs =>
      let signed : Bool := decide (c.val = 45 ∨ c.val = 43)
      let s : GoString := if signed then cs else s0
      if signed && decide (s.length < 1) then (0, some .ErrSyntax)
      else
        match atoiLoop s 0 with
        | none => (0, some .ErrSyntax)
        | some n => (if c.val = 45 then -n else n, none)
  else ParseInt a s0

/-! ## internal/handlers: the month-day validator -/

/-- The map literal `daysInMonth` of `isValidMonthDay`. -/
def daysInMonth : List (Int × Int) :=
  [⟨1, 31⟩, ⟨2, 29⟩, ⟨3, 31⟩, ⟨4, 30⟩, ⟨5, 31⟩, ⟨6, 30⟩,
   ⟨7, 31⟩, ⟨8, 31⟩, ⟨9, 30⟩, ⟨10, 31⟩, ⟨11, 30⟩, ⟨12, 31⟩]

/-- Indexing a Go `map[int]int`: a missing key gives the zero value. -/
def mapIndex (m : List (Int × Int)) (k : Int) : Int :=
  match m.lookup k with
  | some v => v
  | none => 0

/-- The function `isValidMonthDay`. -/
def isValidMonthDay (a : Arch) (monthDay : GoString) : Bool :=
  if monthDay.length ≠ 5 ∨ monthDay.get? 2 ≠ some 45 then false
  else
    let (month, err1) := Atoi a (slice monthDay 0 2)
    let (day, err2) := Atoi a (slice monthDay 3 5)
    if err1 ≠ none ∨ err2 ≠ none then false
    else if month < 1 ∨ month > 12 then false
    else if day < 1 ∨ day > 31 then false
    else if day > mapIndex daysInMonth month then false
    else true

/-! ## Types of `snowfinder-common/models` and `repository` used by the handlers -/

/-- A `float64`, kept as its IEEE-754 bit pattern: the handlers copy it and the
JSON encoder looks at it. -/
structure Float64 where
  bits : Nat
  deriving DecidableEq, Repr

/-- Neither NaN nor an infinity (`math.IsNaN`, `math.IsInf`): the eleven exponent
bits, bits 52 to 62, are not all ones. -/
def Float64.isFinite (f : Float64) : Bool :=
  decide (f.bits / 2 ^ 52 % 2048 ≠ 2047)

/-- The fields of `models.WeeklyResortStats` read by the handlers; a pointer
field is `none` when nil. -/
structure WeeklyResortStats where
  Name : GoString
  Prefecture : GoString
  TotalSnowfall : Option Int
  YearsWithData : Option Int
  TopElevationM : Option Int
  BaseElevationM : Option Int
  VerticalM : Option Int
  NumCourses : Option Int
  LongestCourseKM : Option Float64
  deriving DecidableEq, Repr

/-- The fields of `models.Resort` read by the handlers. -/
structure Resort where
  ID : GoString
  Name : GoString
  deriving DecidableEq, Repr

/-- The type `models.ResortWithPeaks`, over the type `P` of a peak period. -/
structure ResortWithPeaks (P : Type) where
  Resort : Resort
  Peaks : List P

/-- A non-nil Go `error`, as far as the handlers look at it: `msg` is what its
`Error()` method returns. -/
structure GoError where
  msg : GoString
  deriving DecidableEq, Repr

/-- The methods of `repository.Reader` called by the handlers.  Each field gives
the pair of results of the call; the second component is `none` for a nil error.
The context argument is left out: a cancelled or timed out call shows as an
error result. -/
structure Reader (P : Type) where
  GetSnowiestResortsForDateRange :
    GoString → GoString → Int → List WeeklyResortStats × Option GoError
  GetSnowiestResortsForDateRangeByPrefecture :
    GoString → GoString → GoString → Int → List WeeklyResortStats × Option GoError
  GetAllResortsWithPeaks : List (ResortWithPeaks P) × Option GoError
  GetResortByID : GoString → Option Resort × Option GoError
  GetPeakPeriodsForResort : GoString → List P × Option GoError

/-- One call made to the storage collaborator, with its arguments. -/
inductive Call where
  | GetSnowiestResortsForDateRange (startDate endDate : GoString) (limit : Int)
  | GetSnowiestResortsForDateRangeByPrefecture
      (startDate endDate prefecture : GoString) (limit : Int)
  | GetAllResortsWithPeaks
  | GetResortByID (id : GoString)
  | GetPeakPeriodsForResort (resortID : GoString)
  deriving DecidableEq, Repr

/-- The `limit` argument of a ranking call. -/
def Call.limit : Call → Option Int
  | .GetSnowiestResortsForDateRange _ _ l => some l
  | .GetSnowiestResortsForDateRangeByPrefecture _ _ _ l => some l
  | _ => none

/-- The date window argument of a ranking call. -/
def Call.window : Call → Option (GoString × GoString)
  | .GetSnowiestResortsForDateRange s e _ => some (s, e)
  | .GetSnowiestResortsForDateRangeByPrefecture s e _ _ => some (s, e)
  | _ => none

/-! ## internal/handlers: responses -/

/-- The type `ResortResult`. -/
structure ResortResult where
  Rank : Int
  Name : GoString
  Prefecture : GoString
  AvgSnowfall : Option Int
  YearsWithData : Option Int
  TopElevation : Option Int
  BaseElevation : Option Int
  VerticalDrop : Option Int
  NumCourses : Option Int
  LongestCourseKM : Option Float64
  deriving DecidableEq, Repr

/-- The local type `ResortOption` of `ResortsWithPeaksHandler`. -/
structure ResortOption where
  ID : GoString
  Name : GoString
  deriving DecidableEq, Repr

/-- What a handler writes as the body.  `text` is the text of `http.Error` (the
message followed by a newline); `results` is the JSON array written for a list of
`ResortResult`, one element per result; `empty` is a body with nothing in it; for
`options`, `resorts` and `resort` the body is given as the value handed to the JSON
encoder. -/
inductive Body (P : Type) where
  | text (s : GoString)
  | results (rs : List ResortResult)
  | empty
  | options (os : List ResortOption)
  | resorts (rs : List (ResortWithPeaks P))
  | resort (r : ResortWithPeaks P)

/-- Status code and body of a response. -/
structure Response (P : Type) where
  status : Nat
  body : Body P

/-- What running a handler gives: the storage calls made, in order, and the
response written (`none` when the handler panics before writing one). -/
structure Handled (P : Type) where
  calls : List Call
  response : Option (Response P)

/-- The constant `http.StatusBadRequest`. -/
def StatusBadRequest : Nat := 400

/-- The constant `http.StatusNotFound`. -/
def StatusNotFound : Nat := 404

/-- The constant `http.StatusInternalServerError`. -/
def StatusInternalServerError : Nat := 500

/-- The status of a response written without `WriteHeader`. -/
def StatusOK : Nat := 200

/-- The helper `http.Error(w, msg, code)`. -/
def httpError {P : Type} (msg : GoString) (code : Nat) : Response P :=
  ⟨code, .text (msg ++ goStr "\n")⟩

/-! ## internal/handlers: the handlers -/

/-- The method `searchSnowiestResorts`: the call it makes and what it returns. -/
def searchSnowiestResorts {P : Type} (repo : Reader P)
    (startDate endDate prefecture : GoString) (limit : Int) :
    Call × (List WeeklyResortStats × Option GoError) :=
  if prefecture = goStr "" ∨ prefecture = goStr "all" then
    (.GetSnowiestResortsForDateRange startDate endDate limit,
     repo.GetSnowiestResortsForDateRange startDate endDate limit)
  else
    (.GetSnowiestResortsForDateRangeByPrefecture startDate endDate prefecture limit,
     repo.GetSnowiestResortsForDateRangeByPrefecture startDate endDate prefecture limit)

/-- The loop of `convertToResortResults`, from index `i` on. -/
def convertLoop : List WeeklyResortStats → Nat → List ResortResult
  | [], _ => []
  | stat :: rest, i =>
    { Rank := (i : Int) + 1
      Name := stat.Name
      Prefecture := stat.Prefecture
      AvgSnowfall := stat.TotalSnowfall
      YearsWithData := stat.YearsWithData
      TopElevation := stat.TopElevationM
      BaseElevation := stat.BaseElevationM
      VerticalDrop := stat.VerticalM
      NumCourses := stat.NumCourses
      LongestCourseKM := stat.LongestCourseKM } :: convertLoop rest (i + 1)

/-- The method `convertToResortResults`. -/
def convertToResortResults (stats : List WeeklyResortStats) : List ResortResult :=
  convertLoop stats 0

/-- The values `query.Get` gives `SearchHandler` for its four parameters (the
empty string for a parameter that is absent). -/
structure SearchQuery where
  start_date : GoString
  end_date : GoString
  prefecture : GoString
  limit : GoString

/-- The limit computation of `SearchHandler`: 10, unless `limitStr` is
non-empty and `Atoi` parses it without error to a positive value. -/
def searchLimit (a : Arch) (limitStr : GoString) : Int :=
  if limitStr ≠ goStr "" then
    let (parsed, err) := Atoi a limitStr
    if err = none ∧ parsed > 0 then parsed else 10
  else 10

/-- What `encoding/json` does with a `*float64` field: nil is written as `null`, a
finite value as a number, and NaN or an infinity is an `UnsupportedValueError`. -/
def jsonFloatOk (x : Option Float64) : Bool :=
  match x with
  | none => true
  | some f => f.isFinite

/-- The statement `json.NewEncoder(w).Encode(results)` of `SearchHandler`, whose
error the handler drops.  The encoder marshals the whole value before it writes:
when a `LongestCourseKM` is NaN or infinite nothing is written, otherwise the array
of all results is.  The other fields are strings and integers, which always
encode. -/
def encodeResults {P : Type} (results : List ResortResult) : Body P :=
  if results.all (fun r => jsonFloatOk r.LongestCourseKM) then .results results else .empty

/-- The part of `SearchHandler` after the validation of the dates: limit,
storage query, conversion and encoding. -/
def searchRun {P : Type} (a : Arch) (repo : Reader P)
    (startDate endDate prefecture limitStr : GoString) : Handled P :=
  let limit := searchLimit a limitStr
  let (call, stats, err) := searchSnowiestResorts repo startDate endDate prefecture limit
  match err with
  | some e => ⟨[call], some (httpError e.msg StatusInternalServerError)⟩
  | none => ⟨[call], some ⟨StatusOK, encodeResults (convertToResortResults stats)⟩⟩

/-- The method `SearchHandler`. -/
def SearchHandler {P : Type} (a : Arch) (repo : Reader P) (q : SearchQuery) : Handled P :=
  let startDate := q.start_date
  let endDate := q.end_date
  if startDate = goStr "" then
    ⟨[], some (httpError (goStr "start_date is required in MM-DD format") StatusBadRequest)⟩
  else if !isValidMonthDay a startDate then
    ⟨[], some (httpError (goStr "start_date must be in MM-DD format (e.g., 02-08)")
      StatusBadRequest)⟩
  else if endDate = goStr "" then
    searchRun a repo startDate startDate q.prefecture q.limit
  else if !isValidMonthDay a endDate then
    ⟨[], some (httpError (goStr "end_date must be in MM-DD format (e.g., 02-14)")
      StatusBadRequest)⟩
  else
    searchRun a repo startDate endDate q.prefecture q.limit

/-- The method `ResortsWithPeaksHandler`. -/
def ResortsWithPeaksHandler {P : Type} (repo : Reader P) : Handled P :=
  let (resortsWithPeaks, err) := repo.GetAllResortsWithPeaks
  match err with
  | some e => ⟨[.GetAllResortsWithPeaks], some (httpError e.msg StatusInternalServerError)⟩
  | none =>
    ⟨[.GetAllResortsWithPeaks],
     some ⟨StatusOK, .options (resortsWithPeaks.map fun rp => ⟨rp.Resort.ID, rp.Resort.Name⟩)⟩⟩

/-- The method `PeakInfoHandler`, on the value `query.Get` gives for
`resort_id`.  A nil resort returned with a nil error makes `resort.ID` panic. -/
def PeakInfoHandler {P : Type} (repo : Reader P) (resortID : GoString) : Handled P :=
  if resortID = goStr "" ∨ resortID = goStr "all" then
    let (resortsWithPeaks, err) := repo.GetAllResortsWithPeaks
    match err with
    | some e => ⟨[.GetAllResortsWithPeaks], some (httpError e.msg StatusInternalServerError)⟩
    | none => ⟨[.GetAllResortsWithPeaks], some ⟨StatusOK, .resorts resortsWithPeaks⟩⟩
  else
    let (resort, err) := repo.GetResortByID resortID
    match err with
    | some _ => ⟨[.GetResortByID resortID], some (httpError (goStr "Resort not found") StatusNotFound)⟩
    | none =>
      match resort with
      | none => ⟨[.GetResortByID resortID], none⟩
      | some r =>
        let (peaks, err2) := repo.GetPeakPeriodsForResort r.ID
        match err2 with
        | some e =>
          ⟨[.GetResortByID resortID, .GetPeakPeriodsForResort r.ID],
           some (httpError e.msg StatusInternalServerError)⟩
        | none =>
          ⟨[.GetResortByID resortID, .GetPeakPeriodsForResort r.ID],
           some ⟨StatusOK, .resort ⟨r, peaks⟩⟩⟩

/-! ## Reading a handler's result -/

/-- The status code written, if a response was written. -/
def Handled.status {P : Type} (h : Handled P) : Option Nat :=
  h.response.map fun r => r.status

/-- The text written by `http.Error`, if that is what the body is. -/
def Handled.text {P : Type} (h : Handled P) : Option GoString :=
  match h.response with
  | some ⟨_, .text s⟩ => some s
  | _ => none

/-- The results in the JSON array written, if that is what the body is. -/
def Handled.results {P : Type} (h : Handled P) : Option (List ResortResult) :=
  match h.response with
  | some ⟨_, .results rs⟩ => some rs
  | _ => none

/-- Whether a response was written with nothing in its body. -/
def Handled.emptyBody {P : Type} (h : Handled P) : Bool :=
  match h.response with
  | some ⟨_, .empty⟩ => true
  | _ => false

/-! ## Storage doubles -/

/-- A row with the given name, prefecture and snowfall and no other metric. -/
def sampleRow (name prefecture : String) (snowfall : Option Int) : WeeklyResortStats :=
  { Name := goStr name
    Prefecture := goStr prefecture
    TotalSnowfall := snowfall
    YearsWithData := none
    TopElevationM := none
    BaseElevationM := none
    VerticalM := none
    NumCourses := none
    LongestCourseKM := none }

/-- A row like `sampleRow` with no snowfall and the given longest course. -/
def courseRow (name prefecture : String) (km : Float64) : WeeklyResortStats :=
  { sampleRow name prefecture none with LongestCourseKM := some km }

/-- The bit pattern `0x7FF8000000000000`, a NaN. -/
def nanFloat : Float64 := ⟨9221120237041090560⟩

/-- A storage double whose ranking queries return `rows` whatever the arguments,
and whose lookups succeed with no peaks. -/
def rowsReader (rows : List WeeklyResortStats) : Reader Unit where
  GetSnowiestResortsForDateRange := fun _ _ _ => (rows, none)
  GetSnowiestResortsForDateRangeByPrefecture := fun _ _ _ _ => (rows, none)
  GetAllResortsWithPeaks := ([], none)
  GetResortByID := fun id => (some ⟨id, id⟩, none)
  GetPeakPeriodsForResort := fun _ => ([], none)

/-- A storage double whose every call fails with the error `msg`. -/
def failingReader (msg : String) : Reader Unit where
  GetSnowiestResortsForDateRange := fun _ _ _ => ([], some ⟨goStr msg⟩)
  GetSnowiestResortsForDateRangeByPrefecture := fun _ _ _ _ => ([], some ⟨goStr msg⟩)
  GetAllResortsWithPeaks := ([], some ⟨goStr msg⟩)
  GetResortByID := fun _ => (none, some ⟨goStr msg⟩)
  GetPeakPeriodsForResort := fun _ => ([], some ⟨goStr msg⟩)

/-- A storage double that finds every resort and then fails to read its peaks
with the error `msg`. -/
def peaksFailingReader (msg : String) : Reader Unit where
  GetSnowiestResortsForDateRange := fun _ _ _ => ([], none)
  GetSnowiestResortsForDateRangeByPrefecture := fun _ _ _ _ => ([], none)
  GetAllResortsWithPeaks := ([], none)
  GetResortByID := fun id => (some ⟨id, id⟩, none)
  GetPeakPeriodsForResort := fun _ => ([], some ⟨goStr msg⟩)

/-! ## The window normalizer -/

/-- Modelled from the spec: a month-day value.  The window normalizer and the
membership test of a window belong to the storage collaborator (package
`repository` of snowfinder-common), which is not among the sources of this
repository; the handlers only hand the two `MM-DD` strings on. -/
structure MonthDay where
  month : Nat
  day : Nat
  deriving DecidableEq, Repr

/-- Modelled from the spec: calendar order `x <= y` of the absent window
normalizer, month first and then day. -/
def MonthDay.le (x y : MonthDay) : Prop :=
  x.month < y.month ∨ (x.month = y.month ∧ x.day ≤ y.day)

/-- Modelled from the spec: strict calendar order `x < y` of the absent window
normalizer, month first and then day. -/
def MonthDay.lt (x y : MonthDay) : Prop :=
  x.month < y.month ∨ (x.month = y.month ∧ x.day < y.day)

instance (x y : MonthDay) : Decidable (MonthDay.le x y) := by
  unfold MonthDay.le
  infer_instance

instance (x y : MonthDay) : Decidable (MonthDay.lt x y) := by
  unfold MonthDay.lt
  infer_instance

/-- Modelled from the spec: the data type `CalendarWindow` of the absent window
normalizer. -/
structure CalendarWindow where
  startMonth : Nat
  startDay : Nat
  endMonth : Nat
  endDay : Nat
  deriving DecidableEq, Repr

/-- Modelled from the spec: the start of a window of the absent window normalizer,
as a month-day. -/
def CalendarWindow.first (w : CalendarWindow) : MonthDay := ⟨w.startMonth, w.startDay⟩

/-- Modelled from the spec: the end of a window of the absent window normalizer,
as a month-day. -/
def CalendarWindow.last (w : CalendarWindow) : MonthDay := ⟨w.endMonth, w.endDay⟩

/-- Modelled from the spec: the absent operation `normalize(start, end)`; an
omitted end is the start. -/
def normalize (start : MonthDay) (stop : Option MonthDay) : CalendarWindow :=
  match stop with
  | some e => ⟨start.month, start.day, e.month, e.day⟩
  | none => ⟨start.month, start.day, start.month, start.day⟩

/-- Modelled from the spec: the membership predicate of a window of the absent
window normalizer.  When the first day is not after the last, `d` matches between
the two; otherwise the window wraps the year boundary and `d` matches from the
first day on or up to the last. -/
def CalendarWindow.contains (w : CalendarWindow) (d : MonthDay) : Bool :=
  if MonthDay.le w.first w.last then
    decide (MonthDay.le w.first d ∧ MonthDay.le d w.last)
  else
    decide (MonthDay.le w.first d ∨ MonthDay.le d w.last)

/-! ## Words of the specification -/

/-- An ASCII decimal digit. -/
def isDigit (c : Byte) : Prop := 48 ≤ c.val ∧ c.val ≤ 57

instance (c : Byte) : Decidable (isDigit c) := by
  unfold isDigit
  infer_instance

/-- The value of an ASCII decimal digit. -/
def digitVal (c : Byte) : Nat := c.val - 48

/-- The number written by two digits. -/
def twoDigits (x y : Byte) : Int := ((10 * digitVal x + digitVal y : Nat) : Int)

/-- Month lengths as the specification gives them: 31 days for months 1, 3, 5, 7,
8, 10 and 12, 30 days for months 4, 6, 9 and 11, 29 days for month 2. -/
def specDaysInMonth (month : Int) : Int :=
  if month ∈ [1, 3, 5, 7, 8, 10, 12] then 31
  else if month ∈ [4, 6, 9, 11] then 30
  else if month = 2 then 29
  else 0

/-- A decimal numeral: a non-empty string of ASCII decimal digits. -/
def isNumeral (s : GoString) : Prop := s ≠ [] ∧ ∀ c ∈ s, isDigit c

instance (s : GoString) : Decidable (isNumeral s) := by
  unfold isNumeral
  infer_instance

/-- The natural number a string of digits denotes, continuing from `n`. -/
def numeralFrom (n : Nat) (s : GoString) : Nat :=
  s.foldl (fun acc c => acc * 10 + digitVal c) n

/-- The natural number a decimal numeral denotes. -/
def numeralValue (s : GoString) : Nat := numeralFrom 0 s

/-! ## Theorems: strconv -/

theorem atoiLoop_two_digits (x y : Byte) (hx : isDigit x) (hy : isDigit y) :
    atoiLoop [x, y] 0 = some (twoDigits x y) := by
  obtain ⟨hx1, hx2⟩ := hx
  obtain ⟨hy1, hy2⟩ := hy
  have ex : (x.val + 256 - 48) % 256 = x.val - 48 := by omega
  have ey : (y.val + 256 - 48) % 256 = y.val - 48 := by omega
  have nx : ¬ (x.val - 48 > 9) := by omega
  have ny : ¬ (y.val - 48 > 9) := by omega
  simp only [atoiLoop, ex, ey, nx, ny, if_false, twoDigits, digitVal]
  congr 1
  push_cast
  ring

theorem Atoi_two_digits (a : Arch) (x y : Byte) (hx : isDigit x) (hy : isDigit y) :
    Atoi a [x, y] = (twoDigits x y, none) := by
  have h45 : x.val ≠ 45 := by have := hx.1; omega
  have h43 : x.val ≠ 43 := by have := hx.1; omega
  cases a <;>
    simp [Atoi, intSize, h45, h43, atoiLoop_two_digits x y hx hy]

theorem mapIndex_daysInMonth (m : Int) (h1 : 1 ≤ m) (h12 : m ≤ 12) :
    mapIndex daysInMonth m = specDaysInMonth m := by
  interval_cases m <;> decide

/-! ## Theorems: the month-day validator -/

/-- C1: on a string made of two ASCII digits, a hyphen and two ASCII digits,
`isValidMonthDay` is true exactly when the month is between 1 and 12 and the day is
between 1 and the length of that month, February having 29 days. -/
theorem isValidMonthDay_digits_iff (a : Arch) (m1 m2 d1 d2 : Byte)
    (hm1 : isDigit m1) (hm2 : isDigit m2) (hd1 : isDigit d1) (hd2 : isDigit d2) :
    isValidMonthDay a [m1, m2, 45, d1, d2] = true ↔
      (1 ≤ twoDigits m1 m2 ∧ twoDigits m1 m2 ≤ 12 ∧
       1 ≤ twoDigits d1 d2 ∧ twoDigits d1 d2 ≤ specDaysInMonth (twoDigits m1 m2)) := by
  have hs1 : slice [m1, m2, 45, d1, d2] 0 2 = [m1, m2] := rfl
  have hs2 : slice [m1, m2, 45, d1, d2] 3 5 = [d1, d2] := rfl
  unfold isValidMonthDay
  rw [hs1, hs2, Atoi_two_digits a m1 m2 hm1 hm2, Atoi_two_digits a d1 d2 hd1 hd2]
  generalize twoDigits m1 m2 = mm
  generalize twoDigits d1 d2 = dd
  by_cases hmm : 1 ≤ mm ∧ mm ≤ 12
  · obtain ⟨h1, h12⟩ := hmm
    have hle : specDaysInMonth mm ≤ 31 := by
      interval_cases mm <;> decide
    simp [mapIndex_daysInMonth mm h1 h12]
    omega
  · simp
    omega

theorem isValidMonthDay_digits_iff_witness :
    isValidMonthDay .bits64 (goStr "02-29") = true ∧
    isValidMonthDay .bits64 (goStr "02-30") = false ∧
    isValidMonthDay .bits32 (goStr "13-01") = false ∧
    isValidMonthDay .bits64 (goStr "04-31") = false ∧
    isValidMonthDay .bits32 (goStr "00-10") = false ∧
    isValidMonthDay .bits64 (goStr "01-00") = false :=
  ⟨(isValidMonthDay_digits_iff .bits64 48 50 50 57
      (by decide) (by decide) (by decide) (by decide)).mpr (by decide),
   Bool.eq_false_iff.mpr fun h => absurd
     ((isValidMonthDay_digits_iff .bits64 48 50 51 48
       (by decide) (by decide) (by decide) (by decide)).mp h) (by decide),
   Bool.eq_false_iff.mpr fun h => absurd
     ((isValidMonthDay_digits_iff .bits32 49 51 48 49
       (by decide) (by decide) (by decide) (by decide)).mp h) (by decide),
   Bool.eq_false_iff.mpr fun h => absurd
     ((isValidMonthDay_digits_iff .bits64 48 52 51 49
       (by decide) (by decide) (by decide) (by decide)).mp h) (by decide),
   Bool.eq_false_iff.mpr fun h => absurd
     ((isValidMonthDay_digits_iff .bits32 48 48 49 48
       (by decide) (by decide) (by decide) (by decide)).mp h) (by decide),
   Bool.eq_false_iff.mpr fun h => absurd
     ((isValidMonthDay_digits_iff .bits64 48 49 48 48
       (by decide) (by decide) (by decide) (by decide)).mp h) (by decide)⟩

theorem atoiLoop_cons (c : Byte) (cs : GoString) (n : Int) :
    atoiLoop (c :: cs) n =
      if isDigit c then atoiLoop cs (n * 10 + (digitVal c : Int)) else none := by
  have hc := c.isLt
  unfold isDigit digitVal
  by_cases h : 48 ≤ c.val ∧ c.val ≤ 57
  · have e : (c.val + 256 - 48) % 256 = c.val - 48 := by omega
    have ng : ¬ (c.val - 48 > 9) := by omega
    simp only [atoiLoop, e, ng, h, and_self, if_true, if_false]
  · have g : (c.val + 256 - 48) % 256 > 9 := by omega
    simp only [atoiLoop, g, h, if_true, if_false]

theorem atoiLoop_nil (n : Int) : atoiLoop [] n = some n := rfl

theorem Atoi_two_ok (a : Arch) (x y : Byte) (v : Int)
    (h : Atoi a [x, y] = (v, none)) (hv : 1 ≤ v) :
    (isDigit x ∨ x.val = 43) ∧ isDigit y := by
  have hlen : ((intSize a = 32 ∧ 0 < [x, y].length ∧ [x, y].length < 10) ∨
      (intSize a = 64 ∧ 0 < [x, y].length ∧ [x, y].length < 19)) := by
    cases a <;> simp [intSize]
  simp only [Atoi, hlen, if_true] at h
  by_cases hdy : isDigit y
  · by_cases h45 : x.val = 45
    · exfalso
      simp [h45, hdy, atoiLoop_cons, atoiLoop_nil] at h
      omega
    · by_cases h43 : x.val = 43
      · exact ⟨Or.inr h43, hdy⟩
      · by_cases hdx : isDigit x
        · exact ⟨Or.inl hdx, hdy⟩
        · simp [h45, h43, hdx, atoiLoop_cons, atoiLoop_nil] at h
  · exfalso
    by_cases hdx : isDigit x
    · by_cases h45 : x.val = 45 <;> by_cases h43 : x.val = 43 <;>
        simp [h45, h43, hdx, hdy, atoiLoop_cons, atoiLoop_nil] at h
    · by_cases h45 : x.val = 45 <;> by_cases h43 : x.val = 43 <;>
        simp [h45, h43, hdx, hdy, atoiLoop_cons, atoiLoop_nil] at h

/-- Every accepted string has five bytes with a hyphen in the middle, digits at
positions 1 and 4, and a digit or a plus sign at positions 0 and 3. -/
theorem isValidMonthDay_shape (a : Arch) (s : GoString) (h : isValidMonthDay a s = true) :
    ∃ m1 m2 d1 d2 : Byte, s = [m1, m2, 45, d1, d2] ∧
      (isDigit m1 ∨ m1.val = 43) ∧ isDigit m2 ∧ (isDigit d1 ∨ d1.val = 43) ∧ isDigit d2 := by
  unfold isValidMonthDay at h
  split at h
  · exact absurd h (by decide)
  · rename_i hshape
    push_neg at hshape
    obtain ⟨hlen, hsep⟩ := hshape
    match s, hlen, hsep, h with
    | [m1, m2, c, d1, d2], _, hsep, h =>
      have hc : c = 45 := by simpa using hsep
      subst hc
      refine ⟨m1, m2, d1, d2, rfl, ?_⟩
      have hs1 : slice [m1, m2, 45, d1, d2] 0 2 = [m1, m2] := rfl
      have hs2 : slice [m1, m2, 45, d1, d2] 3 5 = [d1, d2] := rfl
      rw [hs1, hs2] at h
      rcases hA : Atoi a [m1, m2] with ⟨mm, e1⟩
      rcases hB : Atoi a [d1, d2] with ⟨dd, e2⟩
      rw [hA, hB] at h
      simp at h
      obtain ⟨⟨he1, he2⟩, ⟨hm, _⟩, ⟨hd, _⟩, _⟩ := h
      subst he1 he2
      have r1 := Atoi_two_ok a m1 m2 mm hA hm
      have r2 := Atoi_two_ok a d1 d2 dd hB hd
      exact ⟨r1.1, r1.2, r2.1, r2.2⟩

/-- C2: the validator accepts the five-byte string `+2-+8`, whose bytes at
positions 0 and 3 are plus signs and not decimal digits: `strconv.Atoi` reads
`+2` as 2 and `+8` as 8. -/
theorem isValidMonthDay_accepts_plus_sign :
    isValidMonthDay .bits64 (goStr "+2-+8") = true ∧
    isValidMonthDay .bits32 (goStr "+2-+8") = true ∧
    (goStr "+2-+8").get? 0 = some 43 ∧ (goStr "+2-+8").get? 3 = some 43 ∧
    ¬ isDigit 43 := by
  decide

/-! ## Theorems: the result assembler -/

theorem convertLoop_length (stats : List WeeklyResortStats) (k : Nat) :
    (convertLoop stats k).length = stats.length := by
  induction stats generalizing k with
  | nil => rfl
  | cons stat rest ih => simp [convertLoop, ih]

theorem convertLoop_get? (stats : List WeeklyResortStats) (k i : Nat)
    (stat : WeeklyResortStats) (h : stats.get? i = some stat) :
    (convertLoop stats k).get? i = some
      { Rank := ((k + i : Nat) : Int) + 1
        Name := stat.Name
        Prefecture := stat.Prefecture
        AvgSnowfall := stat.TotalSnowfall
        YearsWithData := stat.YearsWithData
        TopElevation := stat.TopElevationM
        BaseElevation := stat.BaseElevationM
        VerticalDrop := stat.VerticalM
        NumCourses := stat.NumCourses
        LongestCourseKM := stat.LongestCourseKM } := by
  induction stats generalizing k i with
  | nil => simp at h
  | cons first rest ih =>
    cases i with
    | zero =>
      simp at h
      subst h
      simp [convertLoop]
    | succ j =>
      simp at h
      have := ih (k + 1) j (by simpa using h)
      simp only [convertLoop, List.get?_cons_succ, this]
      congr 3
      omega

/-- C4: `convertToResortResults` returns as many results as it is given rows, and
the result at position `i` has rank `i + 1` and the name, prefecture and optional
metrics of row `i`, a nil metric staying nil. -/
theorem convertToResortResults_spec (stats : List WeeklyResortStats) :
    (convertToResortResults stats).length = stats.length ∧
    ∀ (i : Nat) (stat : WeeklyResortStats), stats.get? i = some stat →
      ∃ r : ResortResult, (convertToResortResults stats).get? i = some r ∧
        r.Rank = (i : Int) + 1 ∧
        r.Name = stat.Name ∧
        r.Prefecture = stat.Prefecture ∧
        r.AvgSnowfall = stat.TotalSnowfall ∧
        r.YearsWithData = stat.YearsWithData ∧
        r.TopElevation = stat.TopElevationM ∧
        r.BaseElevation = stat.BaseElevationM ∧
        r.VerticalDrop = stat.VerticalM ∧
        r.NumCourses = stat.NumCourses ∧
        r.LongestCourseKM = stat.LongestCourseKM := by
  refine ⟨convertLoop_length stats 0, ?_⟩
  intro i stat h
  refine ⟨_, convertLoop_get? stats 0 i stat h, ?_⟩
  simp

theorem convertToResortResults_spec_witness :
    ∃ r : ResortResult,
      (convertToResortResults
        [sampleRow "Niseko" "Hokkaido" (some 320), sampleRow "Hakuba" "Nagano" none]).get? 1 =
          some r ∧
      r.Rank = 2 ∧ r.Name = goStr "Hakuba" ∧ r.Prefecture = goStr "Nagano" ∧
      r.AvgSnowfall = none ∧ r.YearsWithData = none :=
  match (convertToResortResults_spec
      [sampleRow "Niseko" "Hokkaido" (some 320), sampleRow "Hakuba" "Nagano" none]).2 1
      (sampleRow "Hakuba" "Nagano" none) rfl with
  | ⟨r, hr, hrank, hname, hpref, hsnow, hyears, _⟩ =>
    ⟨r, hr, hrank, hname, hpref, hsnow, hyears⟩

/-! ## Theorems: the ranking query dispatcher -/

/-- C5: `searchSnowiestResorts` calls `GetSnowiestResortsForDateRange` when the
prefecture is empty or `all`, and otherwise calls
`GetSnowiestResortsForDateRangeByPrefecture` with the prefecture as given; it
returns what the call returned.  `ALL` and ` all` go to the second path. -/
theorem searchSnowiestResorts_dispatch {P : Type} (repo : Reader P)
    (startDate endDate prefecture : GoString) (limit : Int) :
    ((prefecture = goStr "" ∨ prefecture = goStr "all") →
      searchSnowiestResorts repo startDate endDate prefecture limit =
        (.GetSnowiestResortsForDateRange startDate endDate limit,
         repo.GetSnowiestResortsForDateRange startDate endDate limit)) ∧
    (¬ (prefecture = goStr "" ∨ prefecture = goStr "all") →
      searchSnowiestResorts repo startDate endDate prefecture limit =
        (.GetSnowiestResortsForDateRangeByPrefecture startDate endDate prefecture limit,
         repo.GetSnowiestResortsForDateRangeByPrefecture startDate endDate prefecture limit)) ∧
    searchSnowiestResorts repo startDate endDate (goStr "ALL") limit =
      (.GetSnowiestResortsForDateRangeByPrefecture startDate endDate (goStr "ALL") limit,
       repo.GetSnowiestResortsForDateRangeByPrefecture startDate endDate (goStr "ALL") limit) ∧
    searchSnowiestResorts repo startDate endDate (goStr " all") limit =
      (.GetSnowiestResortsForDateRangeByPrefecture startDate endDate (goStr " all") limit,
       repo.GetSnowiestResortsForDateRangeByPrefecture startDate endDate (goStr " all") limit) := by
  refine ⟨fun h => ?_, fun h => ?_, ?_, ?_⟩
  · simp only [searchSnowiestResorts, h, if_true]
  · simp only [searchSnowiestResorts, h, if_false]
  · have h : ¬ (goStr "ALL" = goStr "" ∨ goStr "ALL" = goStr "all") := by decide
    simp only [searchSnowiestResorts, h, if_false]
  · have h : ¬ (goStr " all" = goStr "" ∨ goStr " all" = goStr "all") := by decide
    simp only [searchSnowiestResorts, h, if_false]

theorem searchSnowiestResorts_dispatch_witness :
    searchSnowiestResorts (rowsReader [sampleRow "Niseko" "Hokkaido" (some 320)])
        (goStr "02-08") (goStr "02-14") (goStr "all") 3 =
      (.GetSnowiestResortsForDateRange (goStr "02-08") (goStr "02-14") 3,
       [sampleRow "Niseko" "Hokkaido" (some 320)], none) ∧
    searchSnowiestResorts (failingReader "connection refused")
        (goStr "02-08") (goStr "02-14") (goStr "Nagano") 3 =
      (.GetSnowiestResortsForDateRangeByPrefecture (goStr "02-08") (goStr "02-14")
         (goStr "Nagano") 3,
       [], some ⟨goStr "connection refused"⟩) :=
  ⟨(searchSnowiestResorts_dispatch (rowsReader [sampleRow "Niseko" "Hokkaido" (some 320)])
      (goStr "02-08") (goStr "02-14") (goStr "all") 3).1 (Or.inr rfl),
   (searchSnowiestResorts_dispatch (failingReader "connection refused")
      (goStr "02-08") (goStr "02-14") (goStr "Nagano") 3).2.1 (by decide)⟩

/-! ## Theorems: the search handler -/

theorem isValidMonthDay_empty (a : Arch) : isValidMonthDay a (goStr "") = false := by
  cases a <;> rfl

theorem searchRun_calls {P : Type} (a : Arch) (repo : Reader P)
    (startDate endDate prefecture limitStr : GoString) :
    (searchRun a repo startDate endDate prefecture limitStr).calls =
      [(searchSnowiestResorts repo startDate endDate prefecture (searchLimit a limitStr)).1] := by
  unfold searchRun
  dsimp only
  generalize searchSnowiestResorts repo startDate endDate prefecture (searchLimit a limitStr) = r
  obtain ⟨call, stats, err⟩ := r
  cases err <;> rfl

theorem searchSnowiestResorts_limit {P : Type} (repo : Reader P)
    (startDate endDate prefecture : GoString) (limit : Int) :
    (searchSnowiestResorts repo startDate endDate prefecture limit).1.limit = some limit := by
  unfold searchSnowiestResorts
  split <;> rfl

theorem searchSnowiestResorts_window {P : Type} (repo : Reader P)
    (startDate endDate prefecture : GoString) (limit : Int) :
    (searchSnowiestResorts repo startDate endDate prefecture limit).1.window =
      some (startDate, endDate) := by
  unfold searchSnowiestResorts
  split <;> rfl

theorem SearchHandler_valid {P : Type} (a : Arch) (repo : Reader P) (q : SearchQuery)
    (hs : isValidMonthDay a q.start_date = true)
    (he : q.end_date = goStr "" ∨ isValidMonthDay a q.end_date = true) :
    SearchHandler a repo q =
      searchRun a repo q.start_date
        (if q.end_date = goStr "" then q.start_date else q.end_date) q.prefecture q.limit := by
  have hne : q.start_date ≠ goStr "" := by
    intro h
    rw [h, isValidMonthDay_empty] at hs
    exact absurd hs (by decide)
  unfold SearchHandler
  by_cases hend : q.end_date = goStr ""
  · simp [hne, hs, hend]
  · have hv : isValidMonthDay a q.end_date = true := he.resolve_left hend
    simp [hne, hs, hend, hv]

theorem SearchHandler_invalid {P : Type} (a : Arch) (repo : Reader P) (q : SearchQuery)
    (h : q.start_date = goStr "" ∨ isValidMonthDay a q.start_date = false ∨
      (q.end_date ≠ goStr "" ∧ isValidMonthDay a q.end_date = false)) :
    (SearchHandler a repo q).calls = [] ∧
      (SearchHandler a repo q).status = some StatusBadRequest := by
  unfold SearchHandler
  by_cases h1 : q.start_date = goStr ""
  · simp [h1, Handled.status, httpError]
  · by_cases h2 : isValidMonthDay a q.start_date = true
    · rcases h with h | h | ⟨h3, h4⟩
      · exact absurd h h1
      · rw [h2] at h
        exact absurd h (by decide)
      · simp [h1, h2, h3, h4, Handled.status, httpError]
    · simp [h1, h2, Handled.status, httpError]

/-- C3: a search request whose `start_date` is missing or invalid, or whose
`end_date` is present and invalid, is answered with status 400 without any storage
call; a storage call is made only when `start_date` is valid and `end_date` is empty
or valid. -/
theorem SearchHandler_fail_fast {P : Type} (a : Arch) (repo : Reader P) (q : SearchQuery) :
    ((q.start_date = goStr "" ∨ isValidMonthDay a q.start_date = false ∨
        (q.end_date ≠ goStr "" ∧ isValidMonthDay a q.end_date = false)) →
      (SearchHandler a repo q).calls = [] ∧ (SearchHandler a repo q).status = some 400) ∧
    ((SearchHandler a repo q).calls ≠ [] →
      isValidMonthDay a q.start_date = true ∧
        (q.end_date = goStr "" ∨ isValidMonthDay a q.end_date = true)) := by
  refine ⟨fun h => SearchHandler_invalid a repo q h, fun hcalls => ?_⟩
  by_contra hcon
  apply hcalls
  apply (SearchHandler_invalid a repo q _).1
  by_cases hs : isValidMonthDay a q.start_date = true
  · right; right
    by_cases he : q.end_date = goStr ""
    · exact absurd ⟨hs, Or.inl he⟩ hcon
    · refine ⟨he, ?_⟩
      by_contra hv
      exact hcon ⟨hs, Or.inr (by simpa using hv)⟩
  · right; left
    simpa using hs

theorem SearchHandler_fail_fast_witness :
    (SearchHandler .bits64 (rowsReader [sampleRow "Niseko" "Hokkaido" (some 320)])
        ⟨goStr "13-01", goStr "", goStr "", goStr ""⟩).calls = [] ∧
    (SearchHandler .bits64 (rowsReader [sampleRow "Niseko" "Hokkaido" (some 320)])
        ⟨goStr "13-01", goStr "", goStr "", goStr ""⟩).status = some 400 ∧
    isValidMonthDay .bits64 (goStr "02-08") = true :=
  ⟨((SearchHandler_fail_fast .bits64 (rowsReader [sampleRow "Niseko" "Hokkaido" (some 320)])
      ⟨goStr "13-01", goStr "", goStr "", goStr ""⟩).1 (Or.inr (Or.inl (by decide)))).1,
   ((SearchHandler_fail_fast .bits64 (rowsReader [sampleRow "Niseko" "Hokkaido" (some 320)])
      ⟨goStr "13-01", goStr "", goStr "", goStr ""⟩).1 (Or.inr (Or.inl (by decide)))).2,
   ((SearchHandler_fail_fast .bits64 (rowsReader [sampleRow "Niseko" "Hokkaido" (some 320)])
      ⟨goStr "02-08", goStr "", goStr "", goStr ""⟩).2 (by decide)).1⟩

/-- C9: for a valid `start_date`, the storage query receives the window
`(start_date, start_date)` when `end_date` is empty and `(start_date, end_date)`,
in that order, when `end_date` is valid, whichever of the two comes first in the
calendar. -/
theorem SearchHandler_window {P : Type} (a : Arch) (repo : Reader P) (q : SearchQuery)
    (hs : isValidMonthDay a q.start_date = true) :
    (q.end_date = goStr "" →
      (SearchHandler a repo q).calls.map Call.window = [some (q.start_date, q.start_date)]) ∧
    (isValidMonthDay a q.end_date = true →
      (SearchHandler a repo q).calls.map Call.window = [some (q.start_date, q.end_date)]) := by
  constructor
  · intro he
    rw [SearchHandler_valid a repo q hs (Or.inl he), searchRun_calls]
    simp [searchSnowiestResorts_window, he]
  · intro he
    have hne : q.end_date ≠ goStr "" := by
      intro h
      rw [h, isValidMonthDay_empty] at he
      exact absurd he (by decide)
    rw [SearchHandler_valid a repo q hs (Or.inr he), searchRun_calls]
    simp [searchSnowiestResorts_window, hne]

theorem SearchHandler_window_witness :
    (SearchHandler .bits64 (rowsReader []) ⟨goStr "12-28", goStr "01-05", goStr "", goStr ""⟩
      ).calls.map Call.window = [some (goStr "12-28", goStr "01-05")] ∧
    (SearchHandler .bits64 (rowsReader []) ⟨goStr "02-08", goStr "", goStr "Nagano", goStr ""⟩
      ).calls.map Call.window = [some (goStr "02-08", goStr "02-08")] :=
  ⟨(SearchHandler_window .bits64 (rowsReader [])
      ⟨goStr "12-28", goStr "01-05", goStr "", goStr ""⟩ (by decide)).2 (by decide),
   (SearchHandler_window .bits64 (rowsReader [])
      ⟨goStr "02-08", goStr "", goStr "Nagano", goStr ""⟩ (by decide)).1 (by decide)⟩

theorem convertLoop_jsonFloatOk (stats : List WeeklyResortStats) (k : Nat) :
    (convertLoop stats k).all (fun r => jsonFloatOk r.LongestCourseKM) =
      stats.all (fun row => jsonFloatOk row.LongestCourseKM) := by
  induction stats generalizing k with
  | nil => rfl
  | cons stat rest ih => simp only [convertLoop, List.all_cons, ih]

theorem encodeResults_convert {P : Type} (rows : List WeeklyResortStats) :
    (encodeResults (convertToResortResults rows) : Body P) =
      if rows.all (fun row => jsonFloatOk row.LongestCourseKM) then
        .results (convertToResortResults rows)
      else .empty := by
  unfold encodeResults convertToResortResults
  rw [convertLoop_jsonFloatOk]

theorem searchRun_response {P : Type} (a : Arch) (repo : Reader P)
    (startDate endDate prefecture limitStr : GoString)
    (call : Call) (rows : List WeeklyResortStats)
    (hq : searchSnowiestResorts repo startDate endDate prefecture (searchLimit a limitStr) =
      (call, rows, none)) :
    (searchRun a repo startDate endDate prefecture limitStr).response =
      some ⟨StatusOK,
        if rows.all (fun row => jsonFloatOk row.LongestCourseKM) then
          .results (convertToResortResults rows)
        else .empty⟩ := by
  unfold searchRun
  dsimp only
  rw [hq]
  dsimp only
  rw [encodeResults_convert]

/-- C7, the claim at a concrete request: with `limit=3` and a storage
collaborator that returns five rows, `SearchHandler` passes 3 as the limit and
writes a JSON array of five results. -/
theorem SearchHandler_exceeds_limit :
    searchLimit .bits64 (goStr "3") = 3 ∧
    (SearchHandler .bits64
      (rowsReader (List.replicate 5 (sampleRow "Niseko" "Hokkaido" (some 320))))
      ⟨goStr "02-08", goStr "02-14", goStr "all", goStr "3"⟩).calls =
        [.GetSnowiestResortsForDateRange (goStr "02-08") (goStr "02-14") 3] ∧
    (SearchHandler .bits64
      (rowsReader (List.replicate 5 (sampleRow "Niseko" "Hokkaido" (some 320))))
      ⟨goStr "02-08", goStr "02-14", goStr "all", goStr "3"⟩).results.map List.length =
        some 5 := by
  decide

/-- C7, amended: for a valid search request, `SearchHandler` makes one storage
call and passes it the effective limit.  When the call returns rows and no error,
and no row has a NaN or infinite `LongestCourseKM`, the JSON array written has
exactly one result per returned row: the handler does not shorten the list.  When
some row has a NaN or infinite `LongestCourseKM`, the encoder refuses the value and
the response is 200 with an empty body. -/
theorem SearchHandler_result_count {P : Type} (a : Arch) (repo : Reader P) (q : SearchQuery)
    (call : Call) (rows : List WeeklyResortStats) (err : Option GoError)
    (hs : isValidMonthDay a q.start_date = true)
    (he : q.end_date = goStr "" ∨ isValidMonthDay a q.end_date = true)
    (hq : searchSnowiestResorts repo q.start_date
        (if q.end_date = goStr "" then q.start_date else q.end_date) q.prefecture
        (searchLimit a q.limit) = (call, rows, err)) :
    (SearchHandler a repo q).calls = [call] ∧
    call.limit = some (searchLimit a q.limit) ∧
    (err = none → (∀ row ∈ rows, jsonFloatOk row.LongestCourseKM = true) →
      ∃ rs, (SearchHandler a repo q).results = some rs ∧ rs.length = rows.length) ∧
    (err = none → ¬ (∀ row ∈ rows, jsonFloatOk row.LongestCourseKM = true) →
      (SearchHandler a repo q).results = none ∧
      (SearchHandler a repo q).status = some 200 ∧
      (SearchHandler a repo q).emptyBody = true) := by
  have hlimit := searchSnowiestResorts_limit repo q.start_date
    (if q.end_date = goStr "" then q.start_date else q.end_date) q.prefecture
    (searchLimit a q.limit)
  rw [SearchHandler_valid a repo q hs he, searchRun_calls, hq]
  rw [hq] at hlimit
  refine ⟨rfl, hlimit, ?_, ?_⟩
  · intro herr hfin
    subst herr
    have hall : rows.all (fun row => jsonFloatOk row.LongestCourseKM) = true :=
      List.all_eq_true.mpr hfin
    refine ⟨convertToResortResults rows, ?_, convertLoop_length rows 0⟩
    simp only [Handled.results, searchRun_response a repo _ _ _ _ call rows hq, hall, if_true]
  · intro herr hfin
    subst herr
    have hall : ¬ (rows.all (fun row => jsonFloatOk row.LongestCourseKM) = true) :=
      fun h => hfin (List.all_eq_true.mp h)
    have hall2 : rows.all (fun row => jsonFloatOk row.LongestCourseKM) = false := by
      simpa using hall
    have hresp := searchRun_response a repo _ _ _ _ call rows hq
    rw [hall2] at hresp
    simp only [Handled.results, Handled.status, Handled.emptyBody, hresp]
    exact ⟨rfl, rfl, rfl⟩

theorem SearchHandler_result_count_witness :
    (∃ rs, (SearchHandler .bits64
        (rowsReader (List.replicate 5 (sampleRow "Niseko" "Hokkaido" (some 320))))
        ⟨goStr "02-08", goStr "02-14", goStr "all", goStr "3"⟩).results = some rs ∧
      rs.length = (List.replicate 5 (sampleRow "Niseko" "Hokkaido" (some 320))).length) ∧
    (SearchHandler .bits64
        (rowsReader [sampleRow "Niseko" "Hokkaido" (some 320), courseRow "Hakuba" "Nagano" nanFloat])
        ⟨goStr "02-08", goStr "02-14", goStr "all", goStr "3"⟩).emptyBody = true :=
  ⟨(SearchHandler_result_count .bits64
      (rowsReader (List.replicate 5 (sampleRow "Niseko" "Hokkaido" (some 320))))
      ⟨goStr "02-08", goStr "02-14", goStr "all", goStr "3"⟩
      (.GetSnowiestResortsForDateRange (goStr "02-08") (goStr "02-14") 3)
      (List.replicate 5 (sampleRow "Niseko" "Hokkaido" (some 320))) none
      (by decide) (Or.inr (by decide)) (by decide)).2.2.1 rfl (by decide),
   ((SearchHandler_result_count .bits64
      (rowsReader [sampleRow "Niseko" "Hokkaido" (some 320), courseRow "Hakuba" "Nagano" nanFloat])
      ⟨goStr "02-08", goStr "02-14", goStr "all", goStr "3"⟩
      (.GetSnowiestResortsForDateRange (goStr "02-08") (goStr "02-14") 3)
      [sampleRow "Niseko" "Hokkaido" (some 320), courseRow "Hakuba" "Nagano" nanFloat] none
      (by decide) (Or.inr (by decide)) (by decide)).2.2.2 rfl (by decide)).2.2⟩

/-! ## Theorems: the peak lookup handler -/

/-- C8: for `resort_id=niseko` and a storage collaborator whose `GetResortByID`
fails with the error `context deadline exceeded`, `PeakInfoHandler` answers 404 with
the text `Resort not found` and does not carry the error's message, where the claim
asks for a 5xx answer carrying it; the same error from `GetPeakPeriodsForResort` is
answered with 500 and the message. -/
theorem PeakInfoHandler_masks_lookup_failure :
    (failingReader "context deadline exceeded").GetResortByID (goStr "niseko") =
      (none, some ⟨goStr "context deadline exceeded"⟩) ∧
    (PeakInfoHandler (failingReader "context deadline exceeded") (goStr "niseko")).status =
      some 404 ∧
    (PeakInfoHandler (failingReader "context deadline exceeded") (goStr "niseko")).text =
      some (goStr "Resort not found\n") ∧
    (PeakInfoHandler (failingReader "context deadline exceeded") (goStr "niseko")).text ≠
      some (goStr "context deadline exceeded\n") ∧
    (PeakInfoHandler (peaksFailingReader "context deadline exceeded") (goStr "niseko")).status =
      some 500 ∧
    (PeakInfoHandler (peaksFailingReader "context deadline exceeded") (goStr "niseko")).text =
      some (goStr "context deadline exceeded\n") := by
  decide

/-- What `PeakInfoHandler` does with an error, for a `resort_id` other than the
empty string and `all`: every error returned by `GetResortByID` gives status 404
and the text `Resort not found` after that one storage call, and an error of
the following `GetPeakPeriodsForResort` call gives status 500 and the error's
message. -/
theorem PeakInfoHandler_errors {P : Type} (repo : Reader P) (resortID : GoString)
    (h1 : resortID ≠ goStr "") (h2 : resortID ≠ goStr "all") :
    (∀ e : GoError, (repo.GetResortByID resortID).2 = some e →
      PeakInfoHandler repo resortID =
        ⟨[.GetResortByID resortID], some (httpError (goStr "Resort not found") 404)⟩) ∧
    (∀ (r : Resort) (e : GoError), repo.GetResortByID resortID = (some r, none) →
      (repo.GetPeakPeriodsForResort r.ID).2 = some e →
      PeakInfoHandler repo resortID =
        ⟨[.GetResortByID resortID, .GetPeakPeriodsForResort r.ID],
          some (httpError e.msg 500)⟩) := by
  have hne : ¬ (resortID = goStr "" ∨ resortID = goStr "all") := by
    rintro (h | h)
    · exact h1 h
    · exact h2 h
  constructor
  · intro e he
    unfold PeakInfoHandler
    rw [if_neg hne]
    rcases hr : repo.GetResortByID resortID with ⟨resort, err⟩
    rw [hr] at he
    simp only at he
    subst he
    rfl
  · intro r e hr hp
    unfold PeakInfoHandler
    rw [if_neg hne, hr]
    rcases hq : repo.GetPeakPeriodsForResort r.ID with ⟨peaks, err2⟩
    rw [hq] at hp
    simp only at hp
    subst hp
    simp only [hq]
    rfl

theorem PeakInfoHandler_errors_witness :
    PeakInfoHandler (failingReader "connection refused") (goStr "niseko") =
      ⟨[.GetResortByID (goStr "niseko")], some (httpError (goStr "Resort not found") 404)⟩ ∧
    PeakInfoHandler (peaksFailingReader "connection refused") (goStr "niseko") =
      ⟨[.GetResortByID (goStr "niseko"), .GetPeakPeriodsForResort (goStr "niseko")],
        some (httpError (goStr "connection refused") 500)⟩ :=
  ⟨(PeakInfoHandler_errors (failingReader "connection refused") (goStr "niseko")
      (by decide) (by decide)).1 ⟨goStr "connection refused"⟩ rfl,
   (PeakInfoHandler_errors (peaksFailingReader "connection refused") (goStr "niseko")
      (by decide) (by decide)).2 ⟨goStr "niseko", goStr "niseko"⟩
      ⟨goStr "connection refused"⟩ rfl rfl⟩

/-! ## Theorems: strconv on decimal numerals -/

theorem numeralFrom_cons (n : Nat) (c : Byte) (cs : GoString) :
    numeralFrom n (c :: cs) = numeralFrom (n * 10 + digitVal c) cs := rfl

theorem le_numeralFrom (s : GoString) (n : Nat) : n ≤ numeralFrom n s := by
  induction s generalizing n with
  | nil => exact Nat.le_refl n
  | cons c cs ih =>
    rw [numeralFrom_cons]
    have := ih (n * 10 + digitVal c)
    omega

theorem numeralFrom_lt (s : GoString) (n : Nat) (hs : ∀ c ∈ s, isDigit c) :
    numeralFrom n s < (n + 1) * 10 ^ s.length := by
  induction s generalizing n with
  | nil => simp [numeralFrom]
  | cons c cs ih =>
    rw [numeralFrom_cons]
    have hc : isDigit c := hs c (List.mem_cons_self c cs)
    have hd : digitVal c ≤ 9 := by
      unfold digitVal
      have := hc.2
      omega
    have h1 := ih (n * 10 + digitVal c) fun x hx => hs x (List.mem_cons_of_mem c hx)
    have h2 : (n * 10 + digitVal c + 1) * 10 ^ cs.length ≤ ((n + 1) * 10) * 10 ^ cs.length :=
      Nat.mul_le_mul_right _ (by omega)
    calc numeralFrom (n * 10 + digitVal c) cs
        < (n * 10 + digitVal c + 1) * 10 ^ cs.length := h1
      _ ≤ ((n + 1) * 10) * 10 ^ cs.length := h2
      _ = (n + 1) * 10 ^ (c :: cs).length := by
        rw [List.length_cons, pow_succ]
        ring

theorem atoiLoop_digits (s : GoString) (n : Nat) (hs : ∀ c ∈ s, isDigit c) :
    atoiLoop s (n : Int) = some ((numeralFrom n s : Nat) : Int) := by
  induction s generalizing n with
  | nil => rfl
  | cons c cs ih =>
    have hc : isDigit c := hs c (List.mem_cons_self c cs)
    rw [atoiLoop_cons, if_pos hc, numeralFrom_cons,
      ← ih (n * 10 + digitVal c) fun x hx => hs x (List.mem_cons_of_mem c hx)]
    congr 1

theorem parseUintLoop_digits (maxVal : Nat) (s : GoString) (n : Nat)
    (hs : ∀ c ∈ s, isDigit c) (hmax : maxVal < 2 ^ 64) (hn : n ≤ maxVal) :
    parseUintLoop maxVal s n = (numeralFrom n s, none) ∧ numeralFrom n s ≤ maxVal ∨
    parseUintLoop maxVal s n = (maxVal, some .ErrRange) ∧ maxVal < numeralFrom n s := by
  induction s generalizing n with
  | nil => exact Or.inl ⟨rfl, hn⟩
  | cons c cs ih =>
    have hc : 48 ≤ c.val ∧ c.val ≤ 57 := hs c (List.mem_cons_self c cs)
    have hd : ¬ (c.val - 48 ≥ 10) := by omega
    have hge := le_numeralFrom cs (n * 10 + digitVal c)
    have hdv : digitVal c = c.val - 48 := rfl
    rw [numeralFrom_cons]
    simp only [parseUintLoop, hc, and_self, if_true, hd, if_false]
    by_cases hcut : n ≥ maxUint64 / 10 + 1
    · right
      simp only [hcut, if_true, true_and]
      simp only [maxUint64] at hcut
      omega
    · simp only [hcut, if_false]
      have hn10 : wrapU64 (n * 10) = n * 10 := by
        simp only [maxUint64] at hcut
        unfold wrapU64
        omega
      rw [hn10]
      by_cases hov : wrapU64 (n * 10 + (c.val - 48)) < n * 10 ∨
          wrapU64 (n * 10 + (c.val - 48)) > maxVal
      · right
        simp only [hov, if_true, true_and]
        unfold wrapU64 at hov
        omega
      · simp only [hov, if_false]
        have hn1 : wrapU64 (n * 10 + (c.val - 48)) = n * 10 + digitVal c := by
          unfold wrapU64 at hov ⊢
          omega
        rw [hn1]
        apply ih (n * 10 + digitVal c) (fun x hx => hs x (List.mem_cons_of_mem c hx))
        rw [← hn1]
        omega

theorem maxVal_eq (a : Arch) :
    wrapU64 (wrapU64 (2 ^ intSize a) + 2 ^ 64 - 1) = 2 ^ intSize a - 1 := by
  cases a <;> decide

theorem ParseInt_numeral (a : Arch) (s : GoString) (hs : isNumeral s) :
    (numeralValue s < 2 ^ (intSize a - 1) → ParseInt a s = ((numeralValue s : Int), none)) ∧
    (2 ^ (intSize a - 1) ≤ numeralValue s → (ParseInt a s).2 = some .ErrRange) := by
  obtain ⟨hne, hdig⟩ := hs
  match s, hne, hdig with
  | c :: cs, _, hdig =>
    have hc : 48 ≤ c.val ∧ c.val ≤ 57 := hdig c (List.mem_cons_self c cs)
    have h43 : ¬ c.val = 43 := by omega
    have h45 : ¬ c.val = 45 := by omega
    have hmax : 2 ^ intSize a - 1 < 2 ^ 64 := by cases a <;> decide
    have hcut : 2 ^ (intSize a - 1) ≤ 2 ^ intSize a - 1 := by cases a <;> decide
    have hloop := parseUintLoop_digits (2 ^ intSize a - 1) (c :: cs) 0 hdig hmax (Nat.zero_le _)
    have hPU : ParseUint a (c :: cs) = parseUintLoop (2 ^ intSize a - 1) (c :: cs) 0 := by
      simp only [ParseUint, maxVal_eq]
      rfl
    simp only [ParseInt, h43, h45, if_false, hPU, numeralValue]
    rcases hloop with ⟨h1, h2⟩ | ⟨h1, h2⟩
    · rw [h1]
      constructor
      · intro hlt
        have : ¬ (numeralFrom 0 (c :: cs) ≥ 2 ^ (intSize a - 1)) := by omega
        simp [this]
      · intro hge
        simp [hge]
    · rw [h1]
      constructor
      · intro hlt
        omega
      · intro _
        have : 2 ^ intSize a - 1 ≥ 2 ^ (intSize a - 1) := hcut
        simp [this]

theorem Atoi_numeral (a : Arch) (s : GoString) (hs : isNumeral s) :
    (numeralValue s < 2 ^ (intSize a - 1) → Atoi a s = ((numeralValue s : Int), none)) ∧
    (2 ^ (intSize a - 1) ≤ numeralValue s → (Atoi a s).2 = some .ErrRange) := by
  by_cases hfast : (intSize a = 32 ∧ 0 < s.length ∧ s.length < 10) ∨
      (intSize a = 64 ∧ 0 < s.length ∧ s.length < 19)
  · have hval : numeralValue s < 2 ^ (intSize a - 1) := by
      have hlt := numeralFrom_lt s 0 hs.2
      simp only [Nat.zero_add, Nat.one_mul] at hlt
      rcases hfast with ⟨hw, _, hlen⟩ | ⟨hw, _, hlen⟩
      · have hp : 10 ^ s.length ≤ 10 ^ 9 := Nat.pow_le_pow_right (by decide) (by omega)
        rw [hw]
        unfold numeralValue
        have : (10 : Nat) ^ 9 < 2 ^ (32 - 1) := by decide
        omega
      · have hp : 10 ^ s.length ≤ 10 ^ 18 := Nat.pow_le_pow_right (by decide) (by omega)
        rw [hw]
        unfold numeralValue
        have : (10 : Nat) ^ 18 < 2 ^ (64 - 1) := by decide
        omega
    refine ⟨fun _ => ?_, fun h => absurd hval (by omega)⟩
    obtain ⟨hne, hdig⟩ := hs
    match s, hne, hdig, hfast with
    | c :: cs, _, hdig, hfast =>
      have hc : 48 ≤ c.val ∧ c.val ≤ 57 := hdig c (List.mem_cons_self c cs)
      have h43 : ¬ c.val = 43 := by omega
      have h45 : ¬ c.val = 45 := by omega
      have hloop := atoiLoop_digits (c :: cs) 0 hdig
      simp only [Nat.cast_zero] at hloop
      simp only [Atoi, hfast, if_true, h43, h45, or_self, decide_False, Bool.false_and,
        Bool.false_eq_true, if_false, hloop, numeralValue]
  · simp only [Atoi, hfast, if_false]
    exact ParseInt_numeral a s hs

theorem searchLimit_numeral (a : Arch) (s : GoString) (hs : isNumeral s) :
    (0 < numeralValue s → numeralValue s < 2 ^ (intSize a - 1) →
      searchLimit a s = (numeralValue s : Int)) ∧
    (2 ^ (intSize a - 1) ≤ numeralValue s → searchLimit a s = 10) := by
  have hne : s ≠ goStr "" := hs.1
  constructor
  · intro hpos hlt
    have h := (Atoi_numeral a s hs).1 hlt
    have hp : (numeralValue s : Int) > 0 := by exact_mod_cast hpos
    simp only [searchLimit, hne, ne_eq, not_false_eq_true, if_true, h, hp, and_self]
  · intro hge
    have h := (Atoi_numeral a s hs).2 hge
    unfold searchLimit
    rw [if_pos hne]
    rcases hA : Atoi a s with ⟨parsed, err⟩
    rw [hA] at h
    simp only at h
    subst h
    simp

/-! ## Theorems: the limit of a search -/

/-- C6, the claim at a concrete request: `limit=9223372036854775808` is a
decimal numeral denoting a positive integer, and the limit passed to storage is 10,
for a 64-bit and for a 32-bit `int`. -/
theorem SearchHandler_limit_out_of_range :
    isNumeral (goStr "9223372036854775808") ∧
    numeralValue (goStr "9223372036854775808") = 9223372036854775808 ∧
    (SearchHandler .bits64 (rowsReader [])
      ⟨goStr "02-08", goStr "", goStr "", goStr "9223372036854775808"⟩).calls =
        [.GetSnowiestResortsForDateRange (goStr "02-08") (goStr "02-08") 10] ∧
    (SearchHandler .bits32 (rowsReader [])
      ⟨goStr "02-08", goStr "", goStr "", goStr "9223372036854775808"⟩).calls =
        [.GetSnowiestResortsForDateRange (goStr "02-08") (goStr "02-08") 10] := by
  decide

/-- C6, amended: in a search with valid dates the limit passed to storage is 10
when `limit` is absent, when `Atoi` returns an error for it, or when it parses to a
value that is not positive; when `limit` is a decimal numeral denoting a positive
integer below `2 ^ (IntSize - 1)` the limit passed is that integer, with no smaller
cap; a numeral denoting `2 ^ (IntSize - 1)` or more gives 10. -/
theorem SearchHandler_limit {P : Type} (a : Arch) (repo : Reader P) (q : SearchQuery)
    (hs : isValidMonthDay a q.start_date = true)
    (he : q.end_date = goStr "" ∨ isValidMonthDay a q.end_date = true) :
    (q.limit = goStr "" → (SearchHandler a repo q).calls.map Call.limit = [some 10]) ∧
    ((Atoi a q.limit).2 ≠ none →
      (SearchHandler a repo q).calls.map Call.limit = [some 10]) ∧
    ((Atoi a q.limit).1 ≤ 0 →
      (SearchHandler a repo q).calls.map Call.limit = [some 10]) ∧
    (isNumeral q.limit → 0 < numeralValue q.limit →
      numeralValue q.limit < 2 ^ (intSize a - 1) →
      (SearchHandler a repo q).calls.map Call.limit = [some (numeralValue q.limit : Int)]) ∧
    (isNumeral q.limit → 2 ^ (intSize a - 1) ≤ numeralValue q.limit →
      (SearchHandler a repo q).calls.map Call.limit = [some 10]) := by
  have hcalls : (SearchHandler a repo q).calls.map Call.limit = [some (searchLimit a q.limit)] := by
    rw [SearchHandler_valid a repo q hs he, searchRun_calls]
    simp [searchSnowiestResorts_limit]
  rw [hcalls]
  refine ⟨fun h => ?_, fun h => ?_, fun h => ?_, fun h1 h2 h3 => ?_, fun h1 h2 => ?_⟩
  · simp [searchLimit, h]
  · unfold searchLimit
    rcases hA : Atoi a q.limit with ⟨parsed, err⟩
    rw [hA] at h
    split <;> simp_all
  · unfold searchLimit
    rcases hA : Atoi a q.limit with ⟨parsed, err⟩
    rw [hA] at h
    have : ¬ (parsed > 0) := by
      simp only at h
      omega
    split <;> simp_all
  · rw [(searchLimit_numeral a q.limit h1).1 h2 h3]
  · rw [(searchLimit_numeral a q.limit h1).2 h2]

theorem SearchHandler_limit_witness :
    (SearchHandler .bits64 (rowsReader [])
      ⟨goStr "02-08", goStr "", goStr "", goStr "250"⟩).calls.map Call.limit =
        [some ((numeralValue (goStr "250") : Nat) : Int)] ∧
    (SearchHandler .bits64 (rowsReader [])
      ⟨goStr "02-08", goStr "", goStr "", goStr "-5"⟩).calls.map Call.limit = [some 10] ∧
    (SearchHandler .bits64 (rowsReader [])
      ⟨goStr "02-08", goStr "", goStr "", goStr "abc"⟩).calls.map Call.limit = [some 10] ∧
    (SearchHandler .bits64 (rowsReader [])
      ⟨goStr "02-08", goStr "", goStr "", goStr "0"⟩).calls.map Call.limit = [some 10] ∧
    (SearchHandler .bits64 (rowsReader [])
      ⟨goStr "02-08", goStr "", goStr "", goStr ""⟩).calls.map Call.limit = [some 10] :=
  ⟨(SearchHandler_limit .bits64 (rowsReader [])
      ⟨goStr "02-08", goStr "", goStr "", goStr "250"⟩ (by decide) (Or.inl (by decide))).2.2.2.1
      (by decide) (by decide) (by decide),
   (SearchHandler_limit .bits64 (rowsReader [])
      ⟨goStr "02-08", goStr "", goStr "", goStr "-5"⟩ (by decide) (Or.inl (by decide))).2.2.1
      (by decide),
   (SearchHandler_limit .bits64 (rowsReader [])
      ⟨goStr "02-08", goStr "", goStr "", goStr "abc"⟩ (by decide) (Or.inl (by decide))).2.1
      (by decide),
   (SearchHandler_limit .bits64 (rowsReader [])
      ⟨goStr "02-08", goStr "", goStr "", goStr "0"⟩ (by decide) (Or.inl (by decide))).2.2.1
      (by decide),
   (SearchHandler_limit .bits64 (rowsReader [])
      ⟨goStr "02-08", goStr "", goStr "", goStr ""⟩ (by decide) (Or.inl (by decide))).1
      (by decide)⟩

/-! ## Theorems: the window normalizer -/

/-- C10: for the window of `normalize(start, end)`, a month-day `d` matches
exactly when `start <= d <= end` if `start <= end` in calendar order, and exactly
when `d >= start` or `d <= end` if `start > end`; `start` and `end` match their own
window, and the window from 12-28 to 01-05 matches 12-31 and 01-02 but not 06-15. -/
theorem normalize_contains (start stop d : MonthDay) :
    (MonthDay.le start stop →
      ((normalize start (some stop)).contains d = true ↔
        MonthDay.le start d ∧ MonthDay.le d stop)) ∧
    (MonthDay.lt stop start →
      ((normalize start (some stop)).contains d = true ↔
        MonthDay.le start d ∨ MonthDay.le d stop)) ∧
    (normalize start (some stop)).contains start = true ∧
    (normalize start (some stop)).contains stop = true ∧
    (normalize ⟨12, 28⟩ (some ⟨1, 5⟩)).contains ⟨12, 31⟩ = true ∧
    (normalize ⟨12, 28⟩ (some ⟨1, 5⟩)).contains ⟨1, 2⟩ = true ∧
    (normalize ⟨12, 28⟩ (some ⟨1, 5⟩)).contains ⟨6, 15⟩ = false := by
  obtain ⟨sm, sd⟩ := start
  obtain ⟨em, ed⟩ := stop
  obtain ⟨dm, dd⟩ := d
  refine ⟨fun h => ?_, fun h => ?_, ?_, ?_, by decide, by decide, by decide⟩
  · simp only [normalize, CalendarWindow.contains, CalendarWindow.first, CalendarWindow.last,
      h, if_true, decide_eq_true_eq]
  · have hn : ¬ MonthDay.le ⟨sm, sd⟩ ⟨em, ed⟩ := by
      simp only [MonthDay.le, MonthDay.lt] at h ⊢
      omega
    simp only [normalize, CalendarWindow.contains, CalendarWindow.first, CalendarWindow.last,
      hn, if_false, decide_eq_true_eq]
  · simp only [normalize, CalendarWindow.contains, CalendarWindow.first, CalendarWindow.last,
      MonthDay.le]
    split <;> simp
    omega
  · simp only [normalize, CalendarWindow.contains, CalendarWindow.first, CalendarWindow.last,
      MonthDay.le]
    split <;> simp
    omega

theorem normalize_contains_witness :
    ((normalize ⟨2, 8⟩ (some ⟨2, 14⟩)).contains ⟨2, 10⟩ = true ↔
      MonthDay.le ⟨2, 8⟩ ⟨2, 10⟩ ∧ MonthDay.le ⟨2, 10⟩ ⟨2, 14⟩) ∧
    ((normalize ⟨12, 28⟩ (some ⟨1, 5⟩)).contains ⟨1, 2⟩ = true ↔
      MonthDay.le ⟨12, 28⟩ ⟨1, 2⟩ ∨ MonthDay.le ⟨1, 2⟩ ⟨1, 5⟩) :=
  ⟨(normalize_contains ⟨2, 8⟩ ⟨2, 14⟩ ⟨2, 10⟩).1 (by decide),
   (normalize_contains ⟨12, 28⟩ ⟨1, 5⟩ ⟨1, 2⟩).2.1 (by decide)⟩

end Snowfinder
